import Mathlib

/-!
Verification development for the `access-queue` crate (`src/src/lib.rs` and
`src/src/tests.rs`): an `AccessQueue` limiting the number of simultaneous
accesses to a guarded item.

The embedding is a sequential, state-passing model of the crate:

* `Listener`/`Event` model the `event_listener` crate as used here: `listen`
  appends a fresh un-notified listener to a FIFO list, `notify_additional n`
  marks the first `n` un-notified listeners as notified (extra notifications
  are dropped when fewer listeners exist), and polling a listener completes
  and removes it exactly when it has been notified.
* `AccessQueue` mirrors the Rust struct: an `AtomicUsize` counter (a `Nat`
  taken modulo `2 ^ usizeBits` exactly where the source's wrapping
  `fetch_add` can overflow), the `Event`, and the guarded `inner` value.
  The compare-and-retry loop of `block` is sequentially deterministic (with
  no interference the first compare-exchange succeeds), so `block` is the
  guarded decrement.
* `accessPoll` mirrors `<Access as Future>::poll`; the future's state is its
  `listener: Option<EventListener>` field, modelled as the stored listener
  id.  The `while !self.queue.block(1)` loop is written with explicit fuel;
  `accessLoop_fuel_succ` shows one unit of fuel always suffices because a
  freshly registered listener is never already notified in the sequential
  model.
* `AccessGuard` operations act on the queue state: `dropGuard`
  (`Drop::drop`, i.e. `release(1)`), `hold_indefinitely` (no release ever),
  and the spec-modelled `reenqueueGuard`.
-/

namespace AccessQueueModel

/-- One registered waiter of the notification primitive. -/
structure Listener where
  id : Nat
  notified : Bool
  deriving DecidableEq

/-- The `event_listener::Event` state: the id to hand to the next listener
and the FIFO list of currently registered listeners (head is oldest). -/
structure Event where
  nextId : Nat
  listeners : List Listener
  deriving DecidableEq

/-- The `Event::new()` state: no listeners. -/
def Event.new : Event := ⟨0, []⟩

/-- The `Event::listen()` operation: registers a fresh, un-notified listener at
the back of the queue and returns its handle. -/
def Event.listen (e : Event) : Nat × Event :=
  (e.nextId, ⟨e.nextId + 1, e.listeners ++ [⟨e.nextId, false⟩]⟩)

/-- Marks the first `n` un-notified listeners (in FIFO order) as notified;
notifications beyond the number of waiting listeners are dropped. -/
def notifyList : Nat → List Listener → List Listener
  | 0, ls => ls
  | _ + 1, [] => []
  | n + 1, l :: ls =>
    if l.notified then l :: notifyList (n + 1) ls
    else { l with notified := true } :: notifyList n ls

/-- The `Event::notify_additional(n)` operation. -/
def Event.notifyAdditional (e : Event) (n : Nat) : Event :=
  ⟨e.nextId, notifyList n e.listeners⟩

/-- Whether the listener with handle `i` has a pending notification. -/
def Event.isNotified (e : Event) (i : Nat) : Bool :=
  match e.listeners.find? (fun l => l.id == i) with
  | some l => l.notified
  | none => false

/-- Polling an `EventListener`: if its notification fired the poll is ready
and the listener is discharged from the queue; otherwise it stays registered
and the poll is pending. -/
def Event.pollListener (e : Event) (i : Nat) : Bool × Event :=
  if e.isNotified i then
    (true, ⟨e.nextId, e.listeners.filter (fun l => l.id != i)⟩)
  else
    (false, e)

/-- Number of already-notified listeners in a listener queue. -/
def notifiedCount (ls : List Listener) : Nat :=
  (ls.filter (fun l => l.notified)).length

/-- Well-formedness of an event state: every registered listener's id was
handed out earlier, i.e. is below `nextId`.  Every state reachable from
`Event.new` satisfies this. -/
def Event.WF (e : Event) : Prop :=
  ∀ l ∈ e.listeners, l.id < e.nextId

instance (e : Event) : Decidable e.WF := by
  unfold Event.WF; infer_instance

/-- Bit width of `usize` on the modelled (64-bit) target. -/
def usizeBits : Nat := 64

/-- The `AccessQueue<T>` struct: the `AtomicUsize` access counter, the
notification `Event`, and the guarded `inner` value. -/
structure AccessQueue (T : Type) where
  count : Nat
  event : Event
  inner : T
  deriving DecidableEq

/-- The `AccessQueue::new(inner, count)` constructor. -/
def AccessQueue.new {T : Type} (inner : T) (count : Nat) : AccessQueue T :=
  { count := count, event := Event.new, inner := inner }

/-- The `AccessQueue::block(amt)` operation.  The source's compare-exchange
retry loop, run without interference, succeeds on the first exchange exactly
when `current >= amt`, leaving `current - amt`; otherwise it exits the
`while current >= amt` loop and returns `false` with the counter untouched. -/
def AccessQueue.block {T : Type} (q : AccessQueue T) (amt : Nat) :
    Bool × AccessQueue T :=
  if amt ≤ q.count then (true, { q with count := q.count - amt })
  else (false, q)

/-- The `AccessQueue::release(amt)` operation: `fetch_add(amt)` on the
`usize` counter (wrapping on overflow, as the source's atomic add does),
then `notify_additional(amt)`. -/
def AccessQueue.release {T : Type} (q : AccessQueue T) (amt : Nat) :
    AccessQueue T :=
  { q with
      count := (q.count + amt) % 2 ^ usizeBits,
      event := q.event.notifyAdditional amt }

/-- The `AccessQueue::access()` constructor of the `Access` future: its state
is its `listener` field, initially `None`. -/
def AccessQueue.access {T : Type} (_q : AccessQueue T) : Option Nat := none

/-- The `AccessQueue::skip_queue()` operation: returns the guarded value from
behind the shared reference; the queue state is untouched. -/
def AccessQueue.skip_queue {T : Type} (q : AccessQueue T) : T × AccessQueue T :=
  (q.inner, q)

/-- The `AccessQueue::get_mut()` accessor (requires exclusive ownership). -/
def AccessQueue.get_mut {T : Type} (q : AccessQueue T) : T := q.inner

/-- The result of polling a future. -/
inductive Poll (α : Type) where
  | Ready (a : α)
  | Pending
  deriving DecidableEq

/-- The `while !self.queue.block(1)` loop of `<Access as Future>::poll`,
entered with `self.listener == None`.  On `block(1)` success it resolves (to
an `AccessGuard`, modelled as the `Ready ()` token).  On failure it registers
a fresh listener and immediately re-checks it: if the listener is already
ready it is discarded and the loop re-runs (the fuel argument bounds that
re-run; `accessLoop_fuel_succ` proves the bound is never hit), otherwise the
listener is stored and the poll returns `Pending`. -/
def accessLoop {T : Type} : Nat → AccessQueue T → Poll Unit × AccessQueue T × Option Nat
  | 0, q => (Poll.Pending, q, none)
  | fuel + 1, q =>
    match q.block 1 with
    | (true, q1) => (Poll.Ready (), q1, none)
    | (false, q1) =>
      match q1.event.listen with
      | (l, e1) =>
        match e1.pollListener l with
        | (true, e2) => accessLoop fuel { q1 with event := e2 }
        | (false, e2) => (Poll.Pending, { q1 with event := e2 }, some l)

/-- `<Access as Future>::poll`: first wait on a listener stored by a previous
suspension (returning `Pending` without touching it while it has not fired,
discarding it once it has), then run the `block(1)` retry loop. -/
def accessPoll {T : Type} (q : AccessQueue T) (listener : Option Nat) :
    Poll Unit × AccessQueue T × Option Nat :=
  match listener with
  | some l =>
    match q.event.pollListener l with
    | (false, e1) => (Poll.Pending, { q with event := e1 }, some l)
    | (true, e1) => accessLoop 1 { q with event := e1 }
  | none => accessLoop 1 q

/-- The `Access::skip_queue()` operation: delegates to the queue's
`skip_queue`; neither the queue nor the stored listener is touched. -/
def Access.skip_queue {T : Type} (q : AccessQueue T) (listener : Option Nat) :
    T × AccessQueue T × Option Nat :=
  ((q.skip_queue).1, (q.skip_queue).2, listener)

/-- `<AccessGuard as Drop>::drop`: `self.queue.release(1)`. -/
def dropGuard {T : Type} (q : AccessQueue T) : AccessQueue T :=
  q.release 1

/-- The `AccessGuard::hold_indefinitely()` operation: the guard is wrapped in
`ManuallyDrop`, so its `Drop` (and hence `release(1)`) never runs; the call
returns `skip_queue()`'s reference to the guarded value. -/
def hold_indefinitely {T : Type} (q : AccessQueue T) : T × AccessQueue T :=
  ((q.skip_queue).1, q)

/-- Modelled from the spec: `AccessGuard::reenqueue` is absent from
`src/src/lib.rs` (it is only exercised by the `reenqueue` test in
`src/src/tests.rs`).  Per the spec (§4.3) it consumes the guard without an
ordinary drop/re-acquire round trip and hands the held slot to the next
waiting request in FIFO order by notifying exactly one waiter; the handoff is
realised by making the guard's single slot available again together with
exactly one notification, so the first waiter (and only it) re-acquires the
slot and the counter is unchanged across the whole transfer.  With no waiter
present the single notification is dropped and the operation degrades to an
ordinary `release(1)`. -/
def reenqueueGuard {T : Type} (q : AccessQueue T) : AccessQueue T :=
  q.release 1

/-! ### Basic lemmas about the event model -/

theorem notifiedCount_cons (l : Listener) (ls : List Listener) :
    notifiedCount (l :: ls) = (if l.notified then 1 else 0) + notifiedCount ls := by
  by_cases h : l.notified <;> simp [notifiedCount, List.filter_cons, h, Nat.add_comm]

theorem notifiedCount_notifyList_le (n : Nat) (ls : List Listener) :
    notifiedCount (notifyList n ls) ≤ notifiedCount ls + n := by
  induction ls generalizing n with
  | nil => cases n <;> simp [notifyList]
  | cons l ls ih =>
    cases n with
    | zero => simp [notifyList]
    | succ n =>
      by_cases hl : l.notified
      · have := ih (n + 1)
        simp [notifyList, hl, notifiedCount_cons]
        omega
      · have := ih n
        simp [notifyList, hl, notifiedCount_cons]
        omega

/-- A freshly registered listener has no pending notification (its id is new,
and it is created un-notified). -/
theorem isNotified_listen_fresh (e : Event) (h : e.WF) :
    ((e.listen).2).isNotified (e.listen).1 = false := by
  rcases e with ⟨nextId, listeners⟩
  simp only [Event.listen, Event.isNotified]
  have hfind : ∀ ls : List Listener, (∀ l ∈ ls, l.id < nextId) →
      List.find? (fun l => l.id == nextId) (ls ++ [⟨nextId, false⟩])
        = some ⟨nextId, false⟩ := by
    intro ls hls
    induction ls with
    | nil => simp [List.find?]
    | cons l ls ih =>
      have hl : l.id < nextId := hls l (by simp)
      have hne : (l.id == nextId) = false := by
        simp [Nat.ne_of_lt hl]
      simp only [List.cons_append, List.find?, hne]
      exact ih (fun x hx => hls x (by simp [hx]))
  rw [hfind listeners h]

/-- Polling a freshly registered listener is pending and leaves the event
unchanged. -/
theorem pollListener_listen_fresh (e : Event) (h : e.WF) :
    ((e.listen).2).pollListener (e.listen).1 = (false, (e.listen).2) := by
  simp [Event.pollListener, isNotified_listen_fresh e h]

/-- One unit of fuel suffices for the poll loop: the re-check of a freshly
registered listener is never already ready in the sequential model, so the
loop body runs at most once per poll. -/
theorem accessLoop_fuel_succ {T : Type} (fuel : Nat) (q : AccessQueue T)
    (h : q.event.WF) :
    accessLoop (fuel + 1) q = accessLoop 1 q := by
  by_cases hc : 1 ≤ q.count
  · simp [accessLoop, AccessQueue.block, hc]
  · simp [accessLoop, AccessQueue.block, hc, pollListener_listen_fresh q.event h]

/-! ### C1 / C10: `block` semantics -/

/-- Claim C1: `block(amt)` succeeds and subtracts `amt` exactly when the
counter holds at least `amt`, and otherwise fails leaving the counter
unchanged; immediately after `new(v, N)` it succeeds for every `amt ≤ N`
leaving `N - amt`; repeated failing calls have no side effects. -/
theorem block_semantics {T : Type} (q : AccessQueue T) (v : T) (N amt : Nat) :
    (amt ≤ q.count → q.block amt = (true, { q with count := q.count - amt }))
    ∧ (q.count < amt → q.block amt = (false, q))
    ∧ (q.count < amt → ((q.block amt).2).block amt = (false, q))
    ∧ (amt ≤ N → (AccessQueue.new v N).block amt
        = (true, { count := N - amt, event := Event.new, inner := v })) := by
  refine ⟨?_, ?_, ?_, ?_⟩
  · intro h; simp [AccessQueue.block, h]
  · intro h; simp [AccessQueue.block, Nat.not_le_of_lt h]
  · intro h; simp [AccessQueue.block, Nat.not_le_of_lt h]
  · intro h; simp [AccessQueue.block, AccessQueue.new, h]

theorem block_semantics_w :
    (AccessQueue.new () 5).block 3
      = (true, { AccessQueue.new () 5 with count := (AccessQueue.new () 5).count - 3 })
    ∧ (AccessQueue.new () 2).block 3 = (false, AccessQueue.new () 2)
    ∧ (((AccessQueue.new () 2).block 3).2).block 3 = (false, AccessQueue.new () 2) := by
  refine ⟨?_, ?_, ?_⟩
  · exact (block_semantics (AccessQueue.new () 5) () 5 3).1 (by decide)
  · exact (block_semantics (AccessQueue.new () 2) () 2 3).2.1 (by decide)
  · exact (block_semantics (AccessQueue.new () 2) () 2 3).2.2.1 (by decide)

/-- Claim C10: `block(0)` always succeeds and leaves the counter (and the
whole queue state) unchanged, for every counter value including `0`. -/
theorem block_zero {T : Type} (q : AccessQueue T) : q.block 0 = (true, q) := by
  cases q
  simp [AccessQueue.block]

/-! ### C2 / C7: `release` semantics -/

/-- Claim C2 counterexample: with the counter at `usize::MAX`, `release(1)`
wraps the counter to `0` rather than increasing it by exactly `1`, so the
unconditional form of the claim fails at this input. -/
theorem release_exact_increase_cex :
    ¬ (((AccessQueue.new () (2 ^ usizeBits - 1)).release 1).count
        = (AccessQueue.new () (2 ^ usizeBits - 1)).count + 1) := by
  decide

/-- Claim C2 (amended): whenever the sum stays below `2 ^ usizeBits` (no
machine overflow), `release(amt)` always succeeds: it increases the counter
by exactly `amt` with no upper-bound check — including from `0` and above any
construction count — leaves the guarded value untouched, and notifies at most
`amt` further waiters. -/
theorem release_increases_spec {T : Type} (q : AccessQueue T) (amt : Nat)
    (h : q.count + amt < 2 ^ usizeBits) :
    (q.release amt).count = q.count + amt
    ∧ (q.release amt).inner = q.inner
    ∧ (q.release amt).event = q.event.notifyAdditional amt
    ∧ notifiedCount (q.release amt).event.listeners
        ≤ notifiedCount q.event.listeners + amt := by
  refine ⟨?_, rfl, rfl, ?_⟩
  · simp [AccessQueue.release, Nat.mod_eq_of_lt h]
  · simpa [AccessQueue.release, Event.notifyAdditional] using
      notifiedCount_notifyList_le amt q.event.listeners

theorem release_increases_spec_w :
    ((AccessQueue.new () 3).release 7).count = (AccessQueue.new () 3).count + 7 :=
  (release_increases_spec (AccessQueue.new () 3) 7 (by decide)).1

/-- Claim C7: `release(amt)` updates the machine-width counter by wrapping
addition, `(old + amt) % 2 ^ usizeBits`; in particular releasing `1` at
`usize::MAX` wraps the counter to `0`. -/
theorem release_wraps {T : Type} (q : AccessQueue T) (amt : Nat) :
    (q.release amt).count = (q.count + amt) % 2 ^ usizeBits
    ∧ ((AccessQueue.new () (2 ^ usizeBits - 1)).release 1).count = 0 :=
  ⟨rfl, by decide⟩

/-! ### C8: `skip_queue` frame property -/

/-- Claim C8: `skip_queue`, on the queue and on a pending `Access`, returns
the guarded value and leaves the whole queue state (counter and event) and
the request's stored listener unchanged. -/
theorem skip_queue_frame {T : Type} (q : AccessQueue T) (l : Option Nat) :
    (q.skip_queue).1 = q.inner
    ∧ (q.skip_queue).2 = q
    ∧ (q.skip_queue).2.count = q.count
    ∧ (q.skip_queue).2.event = q.event
    ∧ Access.skip_queue q l = (q.inner, q, l) :=
  ⟨rfl, rfl, rfl, rfl, rfl⟩

/-! ### C5: the register-then-recheck poll algorithm -/

/-- Claim C5: every invocation of `Access::poll` follows the
register-then-recheck algorithm: a listener stored by a previous suspension
is waited on first (suspending with the same listener, registering nothing
new, while it has not fired; discarded once it has); thereafter `block(1)` is
attempted in a loop; success resolves the poll; failure registers a fresh
listener which is immediately re-checked, looping back to the `block` attempt
when it is already ready (which consumes the loop fuel; one unit always
suffices) and storing it and suspending otherwise. -/
theorem access_poll_algorithm {T : Type} (q : AccessQueue T) (l : Nat) :
    (q.event.isNotified l = false → accessPoll q (some l) = (Poll.Pending, q, some l))
    ∧ (q.event.isNotified l = true →
        accessPoll q (some l) = accessLoop 1 { q with event := (q.event.pollListener l).2 })
    ∧ (1 ≤ q.count → accessPoll q none = (Poll.Ready (), { q with count := q.count - 1 }, none))
    ∧ (q.count = 0 → q.event.WF →
        accessPoll q none
          = (Poll.Pending, { q with event := (q.event.listen).2 }, some q.event.nextId))
    ∧ (∀ fuel, q.event.WF → accessLoop (fuel + 1) q = accessLoop 1 q) := by
  refine ⟨?_, ?_, ?_, ?_, ?_⟩
  · intro h
    cases q
    simp [accessPoll, Event.pollListener, h]
  · intro h
    simp [accessPoll, Event.pollListener, h]
  · intro h
    simp [accessPoll, accessLoop, AccessQueue.block, h]
  · intro h hwf
    have hp := pollListener_listen_fresh q.event hwf
    simp only [Event.listen] at hp
    simp [accessPoll, accessLoop, AccessQueue.block, h, Event.listen, hp]
  · intro fuel hwf
    exact accessLoop_fuel_succ fuel q hwf

theorem access_poll_algorithm_w :
    accessPoll (AccessQueue.new () 0) none
      = (Poll.Pending,
          { AccessQueue.new () 0 with event := (((AccessQueue.new () 0).event).listen).2 },
          some ((AccessQueue.new () 0).event).nextId)
    ∧ accessPoll (AccessQueue.new () 3) none
      = (Poll.Ready (), { AccessQueue.new () 3 with count := (AccessQueue.new () 3).count - 1 },
          none)
    ∧ accessLoop 2 (AccessQueue.new () 0) = accessLoop 1 (AccessQueue.new () 0) := by
  refine ⟨?_, ?_, ?_⟩
  · exact (access_poll_algorithm (AccessQueue.new () 0) 0).2.2.2.1 rfl (by decide)
  · exact (access_poll_algorithm (AccessQueue.new () 3) 0).2.2.1 (by decide)
  · exact (access_poll_algorithm (AccessQueue.new () 0) 0).2.2.2.2 1 (by decide)

/-! ### C3: dropping a guard releases exactly one slot
(the `holds_accesses` scenario of `src/src/tests.rs`) -/

/-- Scenario state: a queue over `Unit` with one available slot. -/
def haQ : AccessQueue Unit := AccessQueue.new () 1

/-- First request polled on `haQ`: resolves immediately. -/
def haP1 := accessPoll haQ none

/-- Second request polled next: suspends. -/
def haP2 := accessPoll haP1.2.1 none

/-- The first guard is dropped. -/
def haD := dropGuard haP2.2.1

/-- The second request polled after the drop. -/
def haP2b := accessPoll haD haP2.2.2

/-- Claim C3: dropping an `AccessGuard` performs `release(1)` on its queue
exactly once — the counter grows by exactly `1`, never `0`, never `2` — and
in the `holds_accesses` scenario the pending second request resolves after
the first guard is dropped. -/
theorem guard_drop_releases_once {T : Type} (q : AccessQueue T)
    (h : q.count + 1 < 2 ^ usizeBits) :
    (dropGuard q).count = q.count + 1
    ∧ (dropGuard q).count ≠ q.count
    ∧ (dropGuard q).count ≠ q.count + 2
    ∧ dropGuard q = q.release 1
    ∧ haP1.1 = Poll.Ready () ∧ haP2.1 = Poll.Pending ∧ haP2b.1 = Poll.Ready () := by
  have h1 : (dropGuard q).count = q.count + 1 := by
    simp [dropGuard, AccessQueue.release, Nat.mod_eq_of_lt h]
  exact ⟨h1, by omega, by omega, rfl, by decide, by decide, by decide⟩

theorem guard_drop_releases_once_w :
    (dropGuard (AccessQueue.new () 0)).count = (AccessQueue.new () 0).count + 1 :=
  (guard_drop_releases_once (AccessQueue.new () 0) (by decide)).1

/-! ### C4: `hold_indefinitely` suppresses the release
(the `hold_indefinitely_does_not_release` scenario of `src/src/tests.rs`) -/

/-- First request on a one-slot queue: resolves immediately. -/
def hiP1 := accessPoll (AccessQueue.new () 1) none

/-- Second request polled next: suspends. -/
def hiP2 := accessPoll hiP1.2.1 none

/-- The first guard is converted via `hold_indefinitely`. -/
def hiH := hold_indefinitely hiP2.2.1

/-- The second request polled after the conversion. -/
def hiP2b := accessPoll hiH.2 hiP2.2.2

/-- Claim C4: `hold_indefinitely` consumes the guard, returns the guarded
value, and never releases: the queue state (in particular the counter) is
untouched, and in the test scenario the pending second request stays pending
afterwards — it never sees that slot freed. -/
theorem hold_indefinitely_no_release {T : Type} (q : AccessQueue T) :
    (hold_indefinitely q).1 = q.inner
    ∧ (hold_indefinitely q).2 = q
    ∧ (hold_indefinitely q).2.count = q.count
    ∧ (hold_indefinitely q).2.event = q.event
    ∧ hiP1.1 = Poll.Ready () ∧ hiP2.1 = Poll.Pending ∧ hiP2b.1 = Poll.Pending :=
  ⟨rfl, rfl, rfl, rfl, by decide, by decide, by decide⟩

/-! ### C6: `reenqueue` hands the slot to the next waiter
(the `reenqueue` scenario of `src/src/tests.rs`) -/

/-- First request on a one-slot queue: resolves immediately. -/
def rqP1 := accessPoll (AccessQueue.new () 1) none

/-- Second request polled next: suspends. -/
def rqP2 := accessPoll rqP1.2.1 none

/-- The first guard is re-enqueued. -/
def rqRe := reenqueueGuard rqP2.2.1

/-- The second request polled after the re-enqueue: takes over the slot. -/
def rqP2b := accessPoll rqRe rqP2.2.2

/-- The first future polled anew after resolving once: suspends again. -/
def rqP1b := accessPoll rqP2b.2.1 none

/-- The second guard is dropped. -/
def rqD := dropGuard rqP1b.2.1

/-- The first future polled after that drop: resolves. -/
def rqP1c := accessPoll rqD rqP1b.2.2

/-- Claim C6: `reenqueue` consumes the guard and transfers its slot to the
next waiting request in FIFO order by notifying exactly one waiter: in the
test scenario the pending second request resolves, the counter after the
handoff equals the counter before the re-enqueue (unchanged overall, with one
guard outstanding both before and after), and exactly one listener was
notified; with no waiter registered it is an ordinary `release(1)`. -/
theorem reenqueue_transfers {T : Type} (q : AccessQueue T) :
    (q.event.listeners = [] → reenqueueGuard q = q.release 1)
    ∧ rqP1.1 = Poll.Ready () ∧ rqP2.1 = Poll.Pending
    ∧ rqP2b.1 = Poll.Ready ()
    ∧ rqP2b.2.1.count = rqP2.2.1.count
    ∧ notifiedCount rqRe.event.listeners = notifiedCount rqP2.2.1.event.listeners + 1
    ∧ rqP1b.1 = Poll.Pending ∧ rqP1c.1 = Poll.Ready () :=
  ⟨fun _ => rfl, by decide, by decide, by decide, by decide, by decide, by decide, by decide⟩

theorem reenqueue_transfers_w :
    reenqueueGuard (AccessQueue.new () 0) = (AccessQueue.new () 0).release 1 :=
  (reenqueue_transfers (AccessQueue.new () 0)).1 rfl

/-! ### C9: FIFO wakeup scenario
(the `releases_accesses_fifo` scenario of `src/src/tests.rs`) -/

/-- Scenario state: a queue over `Unit` with zero available slots. -/
def fifoQ : AccessQueue Unit := AccessQueue.new () 0

/-- First request polled on `fifoQ`: suspends. -/
def fifoP1 := accessPoll fifoQ none

/-- Second request polled next: suspends. -/
def fifoP2 := accessPoll fifoP1.2.1 none

/-- One slot is released. -/
def fifoR1 := fifoP2.2.1.release 1

/-- The first request polled after the release: resolves. -/
def fifoP1b := accessPoll fifoR1 fifoP1.2.2

/-- The second request polled next: still pending. -/
def fifoP2b := accessPoll fifoP1b.2.1 fifoP2.2.2

/-- A second slot is released. -/
def fifoR2 := fifoP2b.2.1.release 1

/-- The second request polled after the second release: resolves. -/
def fifoP2c := accessPoll fifoR2 fifoP2b.2.2

/-- Claim C9: on a queue constructed with count `0`, two polled requests both
suspend; `release(1)` makes exactly the first-registered request resolve
while the second stays pending (on its same listener); a second `release(1)`
then resolves the second request. -/
theorem release_fifo_scenario :
    fifoP1.1 = Poll.Pending ∧ fifoP2.1 = Poll.Pending
    ∧ fifoP1b.1 = Poll.Ready () ∧ fifoP2b.1 = Poll.Pending
    ∧ fifoP2b.2.2 = fifoP2.2.2
    ∧ fifoP2c.1 = Poll.Ready () :=
  ⟨by decide, by decide, by decide, by decide, by decide, by decide⟩

end AccessQueueModel
